/-
Verification of the SawyerSim evaluation harness (src/ManiSkill/AgentEval.py).

The script is a single-episode rollout driver: it resets a simulated
environment, opens one video writer per camera of the initial observation,
then repeatedly builds a policy input batch from the current observation,
queries the policy, rescales and expands the 6-dimensional policy output to
the environment's 7-dimensional action, steps the environment, and appends
each camera's rendered frame to its writer; after the loop it reports
success or failure from the final terminated flag and closes the writers.

This file embeds the script's own logic shallowly: pixel data are integers
(`ℤ`), float tensors are modelled by exact rationals (`ℚ`), Python dicts by
association lists, and the two external collaborators (the policy and the
environment) by abstract function models.  The environment's time-limit
truncation (gym's `max_episode_steps=500`) lives inside the external
framework, so it enters theorems as a hypothesis on the environment model.
The pose-conversion helpers `convert_7_to_6` / `convert_6_to_7` come from
the repository's `utils` module, which is not part of the provided sources;
they are modelled from the specification's description (translation
passthrough plus a 3-parameter encoding of the quaternion).
-/
import Mathlib

namespace SawyerSim

/-! ## Basic data model -/

/-- Per-camera image tensor in channel-last layout, shape `[B, H, W, C]`,
with integer pixel values (the simulator renders `uint8` RGB(A) data). -/
abbrev ImageZ := List (List (List (List ℤ)))

/-- A float image tensor, shape preserved, entries rational. -/
abbrev ImageQ := List (List (List (List ℚ)))

/-- The per-camera entry of `raw_observation["sensor_data"]`: holds the
`"rgb"` image tensor. -/
structure CamData where
  rgb : ImageZ
  deriving Repr, DecidableEq

/-- An environment observation: the 7-dimensional end-effector pose from
`raw_observation["extra"]["tcp_pose"]` and the per-camera image dict
`raw_observation["sensor_data"]` (an association list keyed by camera uid). -/
structure Obs where
  tcp_pose : List ℚ
  sensor_data : List (String × CamData)
  deriving Repr, DecidableEq

/-- Python dict lookup on an association list (first matching key). -/
def dictGet {α : Type} (uid : String) : List (String × α) → Option α
  | [] => none
  | (u, v) :: rest => if u = uid then some v else dictGet uid rest

/-- The keys of a Python dict modelled as an association list. -/
def dictKeys {α : Type} (d : List (String × α)) : List String :=
  d.map Prod.fst

/-! ## Pose-format conversion (modelled from the spec)

`convert_7_to_6` and `convert_6_to_7` are imported from the repository's
`utils` module, which is not among the provided source files.  They are
modelled from the spec: a 7-element pose is 3 translation components plus a
4-component quaternion (scalar first); the 6-element form keeps the
translation and encodes the rotation as 3 components via an axis-angle
style stereographic (Gibbs-vector) encoding `(qx, qy, qz) / qw`, the
inverse re-expanding to the projective quaternion `(1, rx, ry, rz)`.
Quaternions are projective: `q` and `c • q` (`c ≠ 0`) name one rotation, so
this codec is a round trip "consistent with the chosen rotation
representation" exactly as the spec demands. -/

/-- Modelled from the spec: `convert_7_to_6` from `utils` (not under the
provided sources) maps a 7-element pose (translation + scalar-first
quaternion) to the 6-element form (translation + 3-component rotation). -/
def convert_7_to_6 (p : List ℚ) : List ℚ :=
  match p with
  | [x, y, z, qw, qx, qy, qz] => [x, y, z, qx / qw, qy / qw, qz / qw]
  | _ => []

/-- Modelled from the spec: `convert_6_to_7` from `utils` (not under the
provided sources) expands a 6-element pose/action (translation +
3-component rotation) back to the environment's 7-element format. -/
def convert_6_to_7 (a : List ℚ) : List ℚ :=
  match a with
  | [x, y, z, rx, ry, rz] => [x, y, z, 1, rx, ry, rz]
  | _ => []

/-! ## Action scaling

`action[:, :3] *= 0.05` and `action[:, 3:6] *= 0.2` scale each row of the
batched action tensor elementwise: indices 0–2 by 0.05, indices 3–5 by 0.2,
any further index untouched. -/

/-- The per-index scale factor applied to the policy's action row. -/
def scaleFactor (i : ℕ) : ℚ :=
  if i < 3 then 0.05 else if i < 6 then 0.2 else 1

/-- Elementwise scaling of the tail of an action row that starts at
index `i`. -/
def scaleFrom (i : ℕ) : List ℚ → List ℚ
  | [] => []
  | v :: rest => v * scaleFactor i :: scaleFrom (i + 1) rest

/-- The in-place scaling of one action row:
`action[:, :3] *= 0.05; action[:, 3:6] *= 0.2`. -/
def scaleActionRow (a : List ℚ) : List ℚ :=
  scaleFrom 0 a

/-- Row-wise scaling of the batched `(1, 6)` action tensor. -/
def scaleAction (a : List (List ℚ)) : List (List ℚ) :=
  a.map scaleActionRow

/-! ## Policy input preprocessing

Each camera image arrives channel-last (`[B, H, W, C]`) with pixel values
in `[0, 255]`; the script casts to float, permutes to channel-first
(`.permute(0, 3, 1, 2)`) and divides by 255. -/

/-- The channel count of a channel-last image (`C` of `[H, W, C]`);
tensors are rectangular, so the first pixel's length is the tensor's. -/
def channelCount (x : List (List (List ℚ))) : ℕ :=
  ((x.headD []).headD []).length

/-- Transpose one batch element from `[H, W, C]` to `[C, H, W]`: entry
`(c, h, w)` of the result is entry `(h, w, c)` of the input. -/
def hwc_to_chw (x : List (List (List ℚ))) : List (List (List ℚ)) :=
  (List.range (channelCount x)).map fun c =>
    x.map fun row => row.map fun pix => pix.getD c 0

/-- `.to(torch.float32)` on an integer image tensor. -/
def imgToQ (x : ImageZ) : ImageQ :=
  x.map fun a => a.map fun b => b.map fun c => c.map fun n => (Int.cast n : ℚ)

/-- `.permute(0, 3, 1, 2)`: `[B, H, W, C]` to `[B, C, H, W]`. -/
def permute_0312 (x : ImageQ) : ImageQ :=
  x.map hwc_to_chw

/-- `/ 255.0`, elementwise. -/
def div255 (x : ImageQ) : ImageQ :=
  x.map fun a => a.map fun b => b.map fun c => c.map fun v => v / 255

/-- The image pipeline `(img.to(torch.float32).permute(0,3,1,2) / 255.0)`. -/
def preprocessImage (img : ImageZ) : ImageQ :=
  div255 (permute_0312 (imgToQ img))

/-- The policy input dictionary built each iteration: proprioceptive state
(key `OBS_STATE`), the three named image channels, and the task string. -/
structure Batch where
  observation_state : List (List ℚ)
  image : ImageQ
  image2 : ImageQ
  image3 : ImageQ
  task : String
  deriving Repr, DecidableEq

/-- Build the policy input from the current observation: the 6-dimensional
state (converted pose, with the batch dimension of `.unsqueeze(0)`) and the
three preprocessed camera images; `none` models the `KeyError` raised when
a required camera is missing from `sensor_data`. -/
def batchOf (obs : Obs) : Option Batch :=
  match dictGet "top_camera" obs.sensor_data,
        dictGet "side_camera" obs.sensor_data,
        dictGet "wrist_camera" obs.sensor_data with
  | some top, some side, some wrist =>
    some { observation_state := [convert_7_to_6 obs.tcp_pose]
           image := preprocessImage wrist.rgb
           image2 := preprocessImage top.rgb
           image3 := preprocessImage side.rgb
           task := "Pick up the red cube." }
  | _, _, _ => none

/-! ## External collaborators -/

/-- One `env.step` result: next observation, reward, terminated flag,
truncated flag (`info` is unused by the script's logic). -/
structure StepResult where
  obs : Obs
  reward : ℚ
  terminated : Bool
  truncated : Bool
  deriving Repr, DecidableEq

/-- Abstract model of the simulated environment: the reset observation and
the result of the `i`-th `env.step` call given the action passed to it.
The time-limit behaviour of `max_episode_steps` lives inside the external
framework and enters theorems as a hypothesis on `stepf`. -/
structure EnvModel where
  resetObs : Obs
  stepf : ℕ → List (List ℚ) → StepResult

/-- Abstract model of the pretrained policy: the (stateful) policy's output
at the `i`-th `select_action` call on a given input batch, a `(1, 6)`
action tensor. -/
structure PolicyModel where
  select_action : ℕ → Batch → List (List ℚ)

/-- The episode-length cap passed to `gym.make` (`max_episode_steps=500`). -/
def max_episode_steps : ℕ := 500

/-! ## Video writers -/

/-- One stored video frame: `H × W × 3` uint8 pixel data. -/
abbrev Frame := List (List (List ℕ))

/-- `.astype(np.uint8)` on one integer channel value (wraps modulo 256). -/
def castUint8 (n : ℤ) : ℕ :=
  (n % 256).toNat

/-- The frame persisted per camera and step:
`rgba[0, ..., :3].cpu().numpy().astype(np.uint8)` — batch element 0, all
rows and columns, first three channels, cast to uint8. -/
def frameOf (img : ImageZ) : Frame :=
  (img.headD []).map fun row => row.map fun pix => (pix.take 3).map castUint8

/-- The state of one `imageio` writer: its output path, the frames appended
so far, and how many times it has been closed. -/
structure WriterState where
  path : String
  framesWritten : List Frame
  closeCount : ℕ
  deriving Repr, DecidableEq

/-- The output path for a camera's video: `./videos/<camera_id>.mp4`. -/
def videoPath (uid : String) : String :=
  "./videos/" ++ uid ++ ".mp4"

/-- Writer initialization: one writer per key of the initial observation's
`sensor_data`, opened (no frames, never closed) at `videoPath uid`. -/
def initWriters (obs : Obs) : List (String × WriterState) :=
  obs.sensor_data.map fun e => (e.1, ⟨videoPath e.1, [], 0⟩)

/-- `writers[uid].append_data(rgb)`: append a frame to the writer with the
given key. -/
def appendFrame (w : List (String × WriterState)) (uid : String) (f : Frame) :
    List (String × WriterState) :=
  w.map fun e =>
    (e.1, if e.1 = uid then { e.2 with framesWritten := e.2.framesWritten ++ [f] }
          else e.2)

/-- The per-step frame loop `for uid, data in sensor_data.items(): ...`:
appends each camera's frame to `writers[uid]`; a key absent from `writers`
raises `KeyError`, aborting the loop there (`true` in the result flags the
uncaught error). -/
def appendFrames (w : List (String × WriterState)) :
    List (String × CamData) → List (String × WriterState) × Bool
  | [] => (w, false)
  | (uid, d) :: rest =>
    match dictGet uid w with
    | some _ => appendFrames (appendFrame w uid (frameOf d.rgb)) rest
    | none => (w, true)

/-! ## The rollout loop -/

/-- The script's mutable state at the top of each `while not done`
iteration (plus `crashed`, which models an uncaught exception having
aborted the process). -/
structure LoopState where
  raw_observation : Obs
  rewards : List ℚ
  frames : List Frame
  writers : List (String × WriterState)
  step : ℕ
  done : Bool
  terminated : Bool
  truncated : Bool
  crashed : Bool

/-- The action passed to `env.step`: the policy output with its first three
components scaled by 0.05 and components 3–5 scaled by 0.2, expanded to the
7-dimensional format — and nothing else. -/
def sentAction (pol : PolicyModel) (n : ℕ) (b : Batch) : List (List ℚ) :=
  (scaleAction (pol.select_action n b)).map convert_6_to_7

/-- The state after `env.reset` and writer initialization, before the first
loop iteration. -/
def initState (env : EnvModel) : LoopState :=
  { raw_observation := env.resetObs
    rewards := []
    frames := []
    writers := initWriters env.resetObs
    step := 0
    done := false
    terminated := false
    truncated := false
    crashed := false }

/-- One iteration of the rollout loop body: build the batch (a missing
camera key raises), query the policy, scale and convert the action, step
the environment, record the reward, append one frame per camera of the new
observation (a key missing from `writers` raises after the earlier appends
succeeded), then update `done` and `step`. -/
def stepBody (env : EnvModel) (pol : PolicyModel) (s : LoopState) : LoopState :=
  match batchOf s.raw_observation with
  | none => { s with crashed := true }
  | some batch =>
    let r := env.stepf s.step (sentAction pol s.step batch)
    let p := appendFrames s.writers r.obs.sensor_data
    if p.2 then
      { s with raw_observation := r.obs
               rewards := s.rewards ++ [r.reward]
               writers := p.1
               terminated := r.terminated
               truncated := r.truncated
               crashed := true }
    else
      { raw_observation := r.obs
        rewards := s.rewards ++ [r.reward]
        frames := s.frames
        writers := p.1
        step := s.step + 1
        done := r.terminated || r.truncated || s.done
        terminated := r.terminated
        truncated := r.truncated
        crashed := s.crashed }

/-- The state reached after at most `n` iterations of `while not done`:
iteration `n` runs only if the loop is still live (not done, not crashed). -/
def runLoop (env : EnvModel) (pol : PolicyModel) : ℕ → LoopState
  | 0 => initState env
  | n + 1 =>
    let s := runLoop env pol n
    if s.done || s.crashed then s else stepBody env pol s

/-- The post-loop path: print `Success!` or `Failure!` according to the
final `terminated` flag, then close every writer. -/
def teardown (s : LoopState) : String × List (String × WriterState) :=
  (if s.terminated then "Success!" else "Failure!",
   s.writers.map fun e => (e.1, { e.2 with closeCount := e.2.closeCount + 1 }))

/-- The camera identifiers of the environment's initial observation — the
keys over which the video writers are created. -/
def camKeys (env : EnvModel) : List String :=
  dictKeys env.resetObs.sensor_data

/-- A well-behaved environment model: the initial camera identifiers are
distinct, every stepped observation exposes exactly the initial cameras,
and the three cameras the policy input needs are among them.  This is the
behaviour of the external simulator, stated as a hypothesis. -/
structure EnvRegular (env : EnvModel) : Prop where
  nodup : (camKeys env).Nodup
  stepKeys : ∀ i a, dictKeys ((env.stepf i a).obs).sensor_data = camKeys env
  top_mem : "top_camera" ∈ camKeys env
  side_mem : "side_camera" ∈ camKeys env
  wrist_mem : "wrist_camera" ∈ camKeys env

/-- All channel values of an integer image tensor satisfy `P`. -/
def allPixZ (P : ℤ → Prop) (x : ImageZ) : Prop :=
  ∀ a ∈ x, ∀ r ∈ a, ∀ pix ∈ r, ∀ n ∈ pix, P n

/-- All channel values of a rational image tensor satisfy `P`. -/
def allPixQ (P : ℚ → Prop) (x : ImageQ) : Prop :=
  ∀ a ∈ x, ∀ r ∈ a, ∀ pix ∈ r, ∀ v ∈ pix, P v

instance (P : ℤ → Prop) [DecidablePred P] (x : ImageZ) :
    Decidable (allPixZ P x) :=
  inferInstanceAs
    (Decidable (∀ a ∈ x, ∀ r ∈ a, ∀ pix ∈ r, ∀ n ∈ pix, P n))

/-! ## Concrete fixtures

Small concrete environments, policies and observations used to witness the
theorems below on explicit inputs. -/

/-- A camera with an empty image tensor. -/
def cam0 : CamData := ⟨[]⟩

/-- A camera with a `[1, 1, 1, 4]` RGBA image tensor. -/
def camPix : CamData := ⟨[[[[10, 20, 30, 40]]]]⟩

/-- An observation at the identity pose exposing the three cameras the
policy input needs. -/
def obs0 : Obs :=
  ⟨[0, 0, 0, 1, 0, 0, 0],
   [("top_camera", cam0), ("side_camera", cam0), ("wrist_camera", cam0)]⟩

/-- An observation whose pose has first coordinate `2`. -/
def obsBad : Obs :=
  ⟨[2, 0, 0, 1, 0, 0, 0],
   [("top_camera", cam0), ("side_camera", cam0), ("wrist_camera", cam0)]⟩

/-- An observation carrying real pixel data on all three cameras. -/
def obs1 : Obs :=
  ⟨[0, 0, 0, 1, 0, 0, 0],
   [("top_camera", camPix), ("side_camera", camPix), ("wrist_camera", camPix)]⟩

/-- An observation exposing a camera identifier that the initial
observation does not have. -/
def obsGhost : Obs :=
  ⟨[0, 0, 0, 1, 0, 0, 0],
   [("top_camera", cam0), ("side_camera", cam0), ("wrist_camera", cam0),
    ("ghost_camera", cam0)]⟩

/-- An observation missing a camera that the initial observation has. -/
def obsDropped : Obs :=
  ⟨[0, 0, 0, 1, 0, 0, 0], [("top_camera", cam0), ("wrist_camera", cam0)]⟩

/-- An environment that truncates every step. -/
def env0 : EnvModel := ⟨obs0, fun _ _ => ⟨obs0, 0, false, true⟩⟩

/-- An environment whose stepped observations grow an extra camera. -/
def envGhost : EnvModel := ⟨obs0, fun _ _ => ⟨obsGhost, 0, false, false⟩⟩

/-- An environment whose stepped observations drop a camera. -/
def envDropped : EnvModel := ⟨obs0, fun _ _ => ⟨obsDropped, 0, false, false⟩⟩

/-- A policy that always outputs the zero `(1, 6)` action. -/
def pol0 : PolicyModel := ⟨fun _ _ => [[0, 0, 0, 0, 0, 0]]⟩

/-- The policy input the script builds from `obs0`. -/
def batch0 : Batch :=
  { observation_state := [convert_7_to_6 obs0.tcp_pose]
    image := preprocessImage cam0.rgb
    image2 := preprocessImage cam0.rgb
    image3 := preprocessImage cam0.rgb
    task := "Pick up the red cube." }

/-- The policy input the script builds from `obsBad`. -/
def batchBad : Batch :=
  { observation_state := [convert_7_to_6 obsBad.tcp_pose]
    image := preprocessImage cam0.rgb
    image2 := preprocessImage cam0.rgb
    image3 := preprocessImage cam0.rgb
    task := "Pick up the red cube." }

/-- The policy input the script builds from `obs1`. -/
def batch1 : Batch :=
  { observation_state := [convert_7_to_6 obs1.tcp_pose]
    image := preprocessImage camPix.rgb
    image2 := preprocessImage camPix.rgb
    image3 := preprocessImage camPix.rgb
    task := "Pick up the red cube." }

/-! ## Lemmas about scaling -/

theorem scaleFrom_zipWith_add (i : ℕ) (a b : List ℚ)
    (h : a.length = b.length) :
    scaleFrom i (List.zipWith (· + ·) a b) =
      List.zipWith (· + ·) (scaleFrom i a) (scaleFrom i b) := by
  induction a generalizing i b with
  | nil => cases b with
    | nil => simp [scaleFrom]
    | cons y ys => simp at h
  | cons x xs ih =>
    cases b with
    | nil => simp at h
    | cons y ys =>
      simp only [List.length_cons, Nat.succ.injEq] at h
      simp only [List.zipWith_cons_cons, scaleFrom, ih (i + 1) ys h]
      ring_nf

theorem scaleFrom_smul (i : ℕ) (c : ℚ) (a : List ℚ) :
    scaleFrom i (a.map (c * ·)) = (scaleFrom i a).map (c * ·) := by
  induction a generalizing i with
  | nil => simp [scaleFrom]
  | cons x xs ih =>
    simp only [List.map_cons, scaleFrom, ih (i + 1)]
    ring_nf

/-! ## Dictionary lemmas -/

theorem dictGet_isSome_iff {α : Type} (uid : String) (d : List (String × α)) :
    (dictGet uid d).isSome = true ↔ uid ∈ dictKeys d := by
  induction d with
  | nil => simp [dictGet, dictKeys]
  | cons e rest ih =>
    obtain ⟨u, v⟩ := e
    by_cases h : u = uid
    · subst h
      simp [dictGet, dictKeys]
    · simp [dictGet, dictKeys, h, ih, Ne.symm h]

theorem dictGet_eq_none_iff {α : Type} (uid : String) (d : List (String × α)) :
    dictGet uid d = none ↔ uid ∉ dictKeys d := by
  rw [← dictGet_isSome_iff]
  cases dictGet uid d <;> simp

theorem dictGet_mapEntries {α β : Type} (f : String → α → β) (uid : String)
    (d : List (String × α)) :
    dictGet uid (d.map fun e => (e.1, f e.1 e.2)) = (dictGet uid d).map (f uid) := by
  induction d with
  | nil => simp [dictGet]
  | cons e rest ih =>
    by_cases h : e.1 = uid
    · simp [dictGet, h]
    · simp [dictGet, h, ih]

theorem dictKeys_mapEntries {α β : Type} (f : String → α → β)
    (d : List (String × α)) :
    dictKeys (d.map fun e => (e.1, f e.1 e.2)) = dictKeys d := by
  simp [dictKeys, List.map_map, Function.comp]

theorem exists_mem_of_mem_dictKeys {α : Type} {uid : String}
    {d : List (String × α)} (h : uid ∈ dictKeys d) : ∃ v, (uid, v) ∈ d := by
  induction d with
  | nil => simp [dictKeys] at h
  | cons e rest ih =>
    simp only [dictKeys, List.map_cons, List.mem_cons] at h
    rcases h with h | h
    · exact ⟨e.2, List.mem_cons.2 (Or.inl (by rw [h]))⟩
    · obtain ⟨v, hv⟩ := ih h
      exact ⟨v, List.mem_cons_of_mem _ hv⟩

theorem isSome_map_eq {α β : Type} (f : α → β) (o : Option α) :
    (o.map f).isSome = o.isSome := by
  cases o <;> rfl

/-! ## appendFrame / appendFrames lemmas -/

theorem dictGet_appendFrame (w : List (String × WriterState)) (uid u : String)
    (f : Frame) :
    dictGet u (appendFrame w uid f) =
      (dictGet u w).map fun ws =>
        if u = uid then { ws with framesWritten := ws.framesWritten ++ [f] }
        else ws := by
  unfold appendFrame
  exact dictGet_mapEntries (fun k ws =>
    if k = uid then { ws with framesWritten := ws.framesWritten ++ [f] } else ws) u w

theorem dictKeys_appendFrame (w : List (String × WriterState)) (uid : String)
    (f : Frame) : dictKeys (appendFrame w uid f) = dictKeys w := by
  unfold appendFrame
  exact dictKeys_mapEntries (fun k ws =>
    if k = uid then { ws with framesWritten := ws.framesWritten ++ [f] } else ws) w

theorem appendFrames_fst_keys (L : List (String × CamData))
    (w : List (String × WriterState)) :
    dictKeys (appendFrames w L).1 = dictKeys w := by
  induction L generalizing w with
  | nil => rfl
  | cons e rest ih =>
    obtain ⟨u, d⟩ := e
    simp only [appendFrames]
    cases h : dictGet u w with
    | some ws => rw [ih, dictKeys_appendFrame]
    | none => rfl

theorem appendFrames_snd_false (L : List (String × CamData))
    (w : List (String × WriterState))
    (hall : ∀ p ∈ L, (dictGet p.1 w).isSome = true) :
    (appendFrames w L).2 = false := by
  induction L generalizing w with
  | nil => rfl
  | cons e rest ih =>
    obtain ⟨u, d⟩ := e
    simp only [appendFrames]
    cases h : dictGet u w with
    | some ws =>
      refine ih _ fun p hp => ?_
      rw [dictGet_appendFrame, isSome_map_eq]
      exact hall p (List.mem_cons_of_mem _ hp)
    | none =>
      have := hall (u, d) (List.mem_cons_self _ _)
      rw [h] at this
      simp at this

theorem appendFrames_snd_true (L : List (String × CamData))
    (w : List (String × WriterState)) (u : String) (d : CamData)
    (hmem : (u, d) ∈ L) (hnone : dictGet u w = none) :
    (appendFrames w L).2 = true := by
  induction L generalizing w with
  | nil => simp at hmem
  | cons e rest ih =>
    obtain ⟨u1, d1⟩ := e
    simp only [appendFrames]
    cases h : dictGet u1 w with
    | some ws =>
      rcases List.mem_cons.1 hmem with heq | hmemr
      · injection heq with h1 h2
        subst h1
        rw [h] at hnone
        simp at hnone
      · refine ih _ hmemr ?_
        rw [dictGet_appendFrame, hnone]
        rfl
    | none => rfl

theorem appendFrames_dictGet_not_mem (L : List (String × CamData))
    (w : List (String × WriterState)) (u : String)
    (h : u ∉ L.map Prod.fst) :
    dictGet u (appendFrames w L).1 = dictGet u w := by
  induction L generalizing w with
  | nil => rfl
  | cons e rest ih =>
    obtain ⟨u1, d1⟩ := e
    simp only [List.map_cons, List.mem_cons] at h
    push_neg at h
    simp only [appendFrames]
    cases hg : dictGet u1 w with
    | some ws =>
      rw [ih _ h.2, dictGet_appendFrame]
      simp only [if_neg h.1]
      cases dictGet u w <;> rfl
    | none => rfl

theorem appendFrames_dictGet_mem (L : List (String × CamData))
    (w : List (String × WriterState)) (u : String) (d : CamData)
    (hnodup : (L.map Prod.fst).Nodup)
    (hall : ∀ p ∈ L, (dictGet p.1 w).isSome = true)
    (hmem : (u, d) ∈ L) :
    dictGet u (appendFrames w L).1 =
      (dictGet u w).map fun ws =>
        { ws with framesWritten := ws.framesWritten ++ [frameOf d.rgb] } := by
  induction L generalizing w with
  | nil => simp at hmem
  | cons e rest ih =>
    obtain ⟨u1, d1⟩ := e
    simp only [List.map_cons, List.nodup_cons] at hnodup
    simp only [appendFrames]
    cases hg : dictGet u1 w with
    | some ws =>
      rcases List.mem_cons.1 hmem with heq | hmemr
      · have h1 : u = u1 := congrArg Prod.fst heq
        have h2 : d = d1 := congrArg Prod.snd heq
        subst h1
        subst h2
        have hnot : u ∉ rest.map Prod.fst := hnodup.1
        rw [appendFrames_dictGet_not_mem _ _ _ hnot, dictGet_appendFrame]
        simp
      · have hne : u ≠ u1 := by
          rintro rfl
          exact hnodup.1 (List.mem_map.2 ⟨(u, d), hmemr, rfl⟩)
        rw [ih _ hnodup.2 (fun p hp => by
              rw [dictGet_appendFrame, isSome_map_eq]
              exact hall p (List.mem_cons_of_mem _ hp)) hmemr,
            dictGet_appendFrame]
        simp only [if_neg hne]
        cases dictGet u w <;> rfl
    | none =>
      have := hall (u1, d1) (List.mem_cons_self _ _)
      rw [hg] at this
      simp at this

/-! ## Rollout-loop lemmas -/

theorem runLoop_succ (env : EnvModel) (pol : PolicyModel) (n : ℕ) :
    runLoop env pol (n + 1) =
      if (runLoop env pol n).done || (runLoop env pol n).crashed
      then runLoop env pol n else stepBody env pol (runLoop env pol n) := rfl

theorem runLoop_stable (env : EnvModel) (pol : PolicyModel) (n : ℕ)
    (h : (runLoop env pol n).done = true ∨ (runLoop env pol n).crashed = true) :
    ∀ m, runLoop env pol (n + m) = runLoop env pol n := by
  intro m
  induction m with
  | zero => rfl
  | succ m ih =>
    have : n + (m + 1) = (n + m) + 1 := rfl
    rw [this, runLoop_succ, ih]
    rcases h with h | h <;> simp [h]

theorem stepBody_spec (env : EnvModel) (pol : PolicyModel) (s : LoopState)
    (b : Batch) (hb : batchOf s.raw_observation = some b) :
    (stepBody env pol s).raw_observation =
      (env.stepf s.step (sentAction pol s.step b)).obs ∧
    (stepBody env pol s).rewards =
      s.rewards ++ [(env.stepf s.step (sentAction pol s.step b)).reward] ∧
    (stepBody env pol s).terminated =
      (env.stepf s.step (sentAction pol s.step b)).terminated ∧
    (stepBody env pol s).truncated =
      (env.stepf s.step (sentAction pol s.step b)).truncated ∧
    (stepBody env pol s).writers =
      (appendFrames s.writers
        (env.stepf s.step (sentAction pol s.step b)).obs.sensor_data).1 ∧
    (stepBody env pol s).frames = s.frames ∧
    (stepBody env pol s).crashed =
      ((appendFrames s.writers
        (env.stepf s.step (sentAction pol s.step b)).obs.sensor_data).2 || s.crashed) ∧
    (stepBody env pol s).done =
      (if (appendFrames s.writers
            (env.stepf s.step (sentAction pol s.step b)).obs.sensor_data).2
       then s.done
       else ((env.stepf s.step (sentAction pol s.step b)).terminated ||
             (env.stepf s.step (sentAction pol s.step b)).truncated || s.done)) ∧
    (stepBody env pol s).step =
      (if (appendFrames s.writers
            (env.stepf s.step (sentAction pol s.step b)).obs.sensor_data).2
       then s.step else s.step + 1) := by
  unfold stepBody
  rw [hb]
  cases hp : (appendFrames s.writers
      (env.stepf s.step (sentAction pol s.step b)).obs.sensor_data).2 <;>
    simp [hp]

theorem stepBody_crashed_of_none (env : EnvModel) (pol : PolicyModel)
    (s : LoopState) (hb : batchOf s.raw_observation = none) :
    stepBody env pol s = { s with crashed := true } := by
  unfold stepBody
  rw [hb]

theorem stepBody_frames (env : EnvModel) (pol : PolicyModel) (s : LoopState) :
    (stepBody env pol s).frames = s.frames := by
  cases hb : batchOf s.raw_observation with
  | none => rw [stepBody_crashed_of_none env pol s hb]
  | some b => exact (stepBody_spec env pol s b hb).2.2.2.2.2.1

theorem stepBody_writers_keys (env : EnvModel) (pol : PolicyModel)
    (s : LoopState) :
    dictKeys (stepBody env pol s).writers = dictKeys s.writers := by
  cases hb : batchOf s.raw_observation with
  | none => rw [stepBody_crashed_of_none env pol s hb]
  | some b =>
    rw [(stepBody_spec env pol s b hb).2.2.2.2.1, appendFrames_fst_keys]

theorem runLoop_frames (env : EnvModel) (pol : PolicyModel) (n : ℕ) :
    (runLoop env pol n).frames = [] := by
  induction n with
  | zero => rfl
  | succ n ih =>
    rw [runLoop_succ]
    by_cases hg : ((runLoop env pol n).done || (runLoop env pol n).crashed) = true
    · rw [if_pos hg]
      exact ih
    · rw [if_neg hg, stepBody_frames]
      exact ih

theorem runLoop_writers_keys (env : EnvModel) (pol : PolicyModel) (n : ℕ) :
    dictKeys (runLoop env pol n).writers = camKeys env := by
  induction n with
  | zero =>
    show dictKeys (initWriters env.resetObs) = camKeys env
    unfold initWriters camKeys
    exact dictKeys_mapEntries
      (fun k _ => ({ path := videoPath k, framesWritten := [],
                     closeCount := 0 } : WriterState))
      env.resetObs.sensor_data
  | succ n ih =>
    rw [runLoop_succ]
    by_cases hg : ((runLoop env pol n).done || (runLoop env pol n).crashed) = true
    · rw [if_pos hg]
      exact ih
    · rw [if_neg hg, stepBody_writers_keys]
      exact ih

theorem runLoop_step_counter (env : EnvModel) (pol : PolicyModel) (n : ℕ)
    (hd : (runLoop env pol n).done = false)
    (hc : (runLoop env pol n).crashed = false) :
    (runLoop env pol n).step = n := by
  induction n with
  | zero => rfl
  | succ n ih =>
    rw [runLoop_succ] at hd hc ⊢
    by_cases hg : ((runLoop env pol n).done || (runLoop env pol n).crashed) = true
    · rw [if_pos hg] at hd hc
      rw [hd, hc] at hg
      simp at hg
    · rw [if_neg hg] at hd hc ⊢
      simp only [Bool.or_eq_true, not_or] at hg
      have hd0 : (runLoop env pol n).done = false := by
        cases h0 : (runLoop env pol n).done
        · rfl
        · exact absurd h0 hg.1
      have hc0 : (runLoop env pol n).crashed = false := by
        cases h0 : (runLoop env pol n).crashed
        · rfl
        · exact absurd h0 hg.2
      cases hb : batchOf (runLoop env pol n).raw_observation with
      | none =>
        rw [stepBody_crashed_of_none env pol _ hb] at hc
        exact Bool.noConfusion hc
      | some b =>
        obtain ⟨-, -, -, -, -, -, hcr, -, hstep⟩ := stepBody_spec env pol _ b hb
        rw [hcr] at hc
        rw [hstep]
        cases hp : (appendFrames (runLoop env pol n).writers
            (env.stepf (runLoop env pol n).step
              (sentAction pol (runLoop env pol n).step b)).obs.sensor_data).2
        · rw [if_neg (by simp), ih hd0 hc0]
        · rw [hp] at hc
          simp at hc

/-- The master invariant of the rollout loop under a regular environment:
no crash, the current observation exposes exactly the initial cameras, and
every writer keeps its path, has never been closed, and holds exactly one
frame per executed step. -/
theorem loop_invariant (env : EnvModel) (pol : PolicyModel)
    (hreg : EnvRegular env) (n : ℕ) :
    (runLoop env pol n).crashed = false ∧
    dictKeys (runLoop env pol n).raw_observation.sensor_data = camKeys env ∧
    (∀ uid ws, dictGet uid (runLoop env pol n).writers = some ws →
       ws.path = videoPath uid ∧ ws.closeCount = 0 ∧
       ws.framesWritten.length = (runLoop env pol n).step) := by
  induction n with
  | zero =>
    refine ⟨rfl, rfl, fun uid ws hws => ?_⟩
    have : dictGet uid (initWriters env.resetObs) =
        (dictGet uid env.resetObs.sensor_data).map
          (fun _ => ({ path := videoPath uid, framesWritten := [],
                       closeCount := 0 } : WriterState)) :=
      dictGet_mapEntries
        (fun k _ => ({ path := videoPath k, framesWritten := [],
                       closeCount := 0 } : WriterState))
        uid env.resetObs.sensor_data
    rw [show (runLoop env pol 0).writers = initWriters env.resetObs from rfl,
        this] at hws
    cases hg : dictGet uid env.resetObs.sensor_data with
    | none =>
      rw [hg] at hws
      exact Option.noConfusion hws
    | some v =>
      rw [hg] at hws
      simp only [Option.map_some'] at hws
      injection hws with hws
      exact ⟨by rw [← hws], by rw [← hws], by rw [← hws]; rfl⟩
  | succ n ih =>
    obtain ⟨ihc, ihobs, ihw⟩ := ih
    rw [runLoop_succ]
    by_cases hg : ((runLoop env pol n).done || (runLoop env pol n).crashed) = true
    · rw [if_pos hg]
      exact ⟨ihc, ihobs, ihw⟩
    · rw [if_neg hg]
      -- the current observation carries the three cameras the batch needs
      have htopS : (dictGet "top_camera"
          (runLoop env pol n).raw_observation.sensor_data).isSome = true := by
        rw [dictGet_isSome_iff, ihobs]
        exact hreg.top_mem
      have hsideS : (dictGet "side_camera"
          (runLoop env pol n).raw_observation.sensor_data).isSome = true := by
        rw [dictGet_isSome_iff, ihobs]
        exact hreg.side_mem
      have hwristS : (dictGet "wrist_camera"
          (runLoop env pol n).raw_observation.sensor_data).isSome = true := by
        rw [dictGet_isSome_iff, ihobs]
        exact hreg.wrist_mem
      obtain ⟨top, htop⟩ := Option.isSome_iff_exists.1 htopS
      obtain ⟨side, hside⟩ := Option.isSome_iff_exists.1 hsideS
      obtain ⟨wrist, hwrist⟩ := Option.isSome_iff_exists.1 hwristS
      obtain ⟨b, hb⟩ : ∃ b, batchOf (runLoop env pol n).raw_observation =
          some b := by
        unfold batchOf
        rw [htop, hside, hwrist]
        exact ⟨_, rfl⟩
      obtain ⟨hobs, -, -, -, hwr, -, hcr, -, hstep⟩ :=
        stepBody_spec env pol _ _ hb
      -- every camera of the stepped observation has a writer
      have hall : ∀ p ∈ (env.stepf (runLoop env pol n).step
            (sentAction pol (runLoop env pol n).step b)).obs.sensor_data,
          (dictGet p.1 (runLoop env pol n).writers).isSome = true := by
        intro p hp
        rw [dictGet_isSome_iff, runLoop_writers_keys, ← hreg.stepKeys
          (runLoop env pol n).step (sentAction pol (runLoop env pol n).step b)]
        exact List.mem_map.2 ⟨p, hp, rfl⟩
      have hp2 : (appendFrames (runLoop env pol n).writers
          (env.stepf (runLoop env pol n).step
            (sentAction pol (runLoop env pol n).step b)).obs.sensor_data).2 =
          false := appendFrames_snd_false _ _ hall
      refine ⟨?_, ?_, ?_⟩
      · rw [hcr, hp2, ihc]
        rfl
      · rw [hobs, hreg.stepKeys]
      · intro uid ws hws
        rw [hwr] at hws
        have huid : uid ∈ camKeys env := by
          have : (dictGet uid (appendFrames (runLoop env pol n).writers
              (env.stepf (runLoop env pol n).step
                (sentAction pol (runLoop env pol n).step b)).obs.sensor_data).1).isSome
              = true := by rw [hws]; rfl
          rw [dictGet_isSome_iff, appendFrames_fst_keys,
            runLoop_writers_keys] at this
          exact this
        have huidL : uid ∈ dictKeys (env.stepf (runLoop env pol n).step
            (sentAction pol (runLoop env pol n).step b)).obs.sensor_data := by
          rw [hreg.stepKeys]
          exact huid
        obtain ⟨d, hd⟩ := exists_mem_of_mem_dictKeys huidL
        have hnodupL : ((env.stepf (runLoop env pol n).step
            (sentAction pol (runLoop env pol n).step b)).obs.sensor_data.map
              Prod.fst).Nodup := by
          show (dictKeys _).Nodup
          rw [hreg.stepKeys]
          exact hreg.nodup
        rw [appendFrames_dictGet_mem _ _ uid d hnodupL hall hd] at hws
        have huidW : (dictGet uid (runLoop env pol n).writers).isSome = true := by
          rw [dictGet_isSome_iff, runLoop_writers_keys]
          exact huid
        obtain ⟨ws0, hws0⟩ := Option.isSome_iff_exists.1 huidW
        rw [hws0] at hws
        simp only [Option.map_some'] at hws
        injection hws with hws
        obtain ⟨hpath, hclose, hlen⟩ := ihw uid ws0 hws0
        refine ⟨by rw [← hws, hpath], by rw [← hws, hclose], ?_⟩
        rw [← hws]
        simp only [List.length_append, List.length_singleton]
        rw [hlen, hstep, hp2]
        simp

/-- The environment model `env0` has distinct camera keys, stable stepped
keys, and all three policy cameras. -/
theorem env0_regular : EnvRegular env0 :=
  ⟨by decide, fun _ _ => rfl, by decide, by decide, by decide⟩

/-! ## Claim C3: the loop terminates within the episode-step cap -/

/-- C3: if the environment (as gym's `TimeLimit` wrapper guarantees for
`max_episode_steps = 500`) returns `truncated = true` from the 500th step
call onwards, the rollout loop is finished after at most 500 iterations —
either `done` becomes true via the truncation flag or an uncaught error has
already aborted the script — and every later iteration leaves the state
unchanged, even if `terminated` is never set. -/
theorem loop_terminates (env : EnvModel) (pol : PolicyModel)
    (hcap : ∀ i a, max_episode_steps ≤ i + 1 → (env.stepf i a).truncated = true) :
    ((runLoop env pol max_episode_steps).done = true ∨
     (runLoop env pol max_episode_steps).crashed = true) ∧
    ∀ m, runLoop env pol (max_episode_steps + m) =
      runLoop env pol max_episode_steps := by
  have hmain : (runLoop env pol max_episode_steps).done = true ∨
      (runLoop env pol max_episode_steps).crashed = true := by
    by_cases hl : ((runLoop env pol 499).done || (runLoop env pol 499).crashed)
        = true
    · have hl2 : (runLoop env pol 499).done = true ∨
          (runLoop env pol 499).crashed = true := by simpa using hl
      have h500 : runLoop env pol max_episode_steps = runLoop env pol 499 :=
        runLoop_stable env pol 499 hl2 1
      rw [h500]
      exact hl2
    · simp only [Bool.or_eq_true, not_or] at hl
      have hd0 : (runLoop env pol 499).done = false := by
        cases h0 : (runLoop env pol 499).done
        · rfl
        · exact absurd h0 hl.1
      have hc0 : (runLoop env pol 499).crashed = false := by
        cases h0 : (runLoop env pol 499).crashed
        · rfl
        · exact absurd h0 hl.2
      have hstep499 := runLoop_step_counter env pol 499 hd0 hc0
      have hsucc : runLoop env pol max_episode_steps =
          stepBody env pol (runLoop env pol 499) := by
        show runLoop env pol (499 + 1) = _
        rw [runLoop_succ, if_neg (by simp [hd0, hc0])]
      rw [hsucc]
      cases hb : batchOf (runLoop env pol 499).raw_observation with
      | none =>
        rw [stepBody_crashed_of_none env pol _ hb]
        exact Or.inr rfl
      | some b =>
        obtain ⟨-, -, -, -, -, -, hcr, hdone, -⟩ := stepBody_spec env pol _ b hb
        cases hp : (appendFrames (runLoop env pol 499).writers
            (env.stepf (runLoop env pol 499).step
              (sentAction pol (runLoop env pol 499).step b)).obs.sensor_data).2
        · left
          rw [hdone, hp, if_neg (by simp), hstep499,
            hcap 499 _ (Nat.le_refl _)]
          simp
        · right
          rw [hcr, hp]
          rfl
  exact ⟨hmain, runLoop_stable env pol max_episode_steps hmain⟩

/-- Witness for C3 on the always-truncating environment `env0`. -/
theorem loop_terminates_witness :
    ((runLoop env0 pol0 max_episode_steps).done = true ∨
     (runLoop env0 pol0 max_episode_steps).crashed = true) ∧
    ∀ m, runLoop env0 pol0 (max_episode_steps + m) =
      runLoop env0 pol0 max_episode_steps :=
  loop_terminates env0 pol0 (fun _ _ _ => rfl)

/-! ## Claim C1: the action sent to the environment -/

/-- C1: at every live loop iteration, the action passed to `env.step` is
exactly the policy's 6-dimensional output with its first three components
multiplied by 0.05 and components 3–5 multiplied by 0.2, expanded to the
7-dimensional format by `convert_6_to_7` — and the successor state's
observation, reward and flags come from `env.stepf` applied to precisely
that action, so no other transformation intervenes. -/
theorem action_transform (env : EnvModel) (pol : PolicyModel) (n : ℕ)
    (b : Batch)
    (hd : (runLoop env pol n).done = false)
    (hc : (runLoop env pol n).crashed = false)
    (hb : batchOf (runLoop env pol n).raw_observation = some b) :
    sentAction pol n b =
      (pol.select_action n b).map (fun row => convert_6_to_7 (scaleActionRow row)) ∧
    (runLoop env pol (n + 1)).raw_observation =
      (env.stepf n (sentAction pol n b)).obs ∧
    (runLoop env pol (n + 1)).rewards =
      (runLoop env pol n).rewards ++ [(env.stepf n (sentAction pol n b)).reward] ∧
    (runLoop env pol (n + 1)).terminated =
      (env.stepf n (sentAction pol n b)).terminated ∧
    (runLoop env pol (n + 1)).truncated =
      (env.stepf n (sentAction pol n b)).truncated := by
  have hstepn := runLoop_step_counter env pol n hd hc
  have hsucc : runLoop env pol (n + 1) = stepBody env pol (runLoop env pol n) := by
    rw [runLoop_succ, if_neg (by simp [hd, hc])]
  obtain ⟨hobs, hrew, hterm, htrunc, -, -, -, -, -⟩ :=
    stepBody_spec env pol _ b hb
  rw [hstepn] at hobs hrew hterm htrunc
  rw [hsucc]
  exact ⟨by simp [sentAction, scaleAction, List.map_map, Function.comp],
    hobs, hrew, hterm, htrunc⟩

/-- Witness for C1 at the first iteration of `env0` with the zero policy. -/
theorem action_transform_witness :
    sentAction pol0 0 batch0 =
      (pol0.select_action 0 batch0).map
        (fun row => convert_6_to_7 (scaleActionRow row)) ∧
    (runLoop env0 pol0 1).raw_observation =
      (env0.stepf 0 (sentAction pol0 0 batch0)).obs ∧
    (runLoop env0 pol0 1).rewards =
      (runLoop env0 pol0 0).rewards ++
        [(env0.stepf 0 (sentAction pol0 0 batch0)).reward] ∧
    (runLoop env0 pol0 1).terminated =
      (env0.stepf 0 (sentAction pol0 0 batch0)).terminated ∧
    (runLoop env0 pol0 1).truncated =
      (env0.stepf 0 (sentAction pol0 0 batch0)).truncated :=
  action_transform env0 pol0 0 batch0 rfl rfl rfl

/-! ## Claim C4: one video per camera, one frame per step -/

/-- C4: under a regular environment, at every point of the rollout there is
exactly one writer per camera identifier of the initial observation, each
at path `./videos/<camera_id>.mp4`, and each holds exactly one appended
frame per executed `env.step` call. -/
theorem one_video_per_camera (env : EnvModel) (pol : PolicyModel)
    (hreg : EnvRegular env) (n : ℕ) :
    dictKeys (runLoop env pol n).writers = camKeys env ∧
    (camKeys env).Nodup ∧
    (∀ uid ws, dictGet uid (runLoop env pol n).writers = some ws →
       ws.path = videoPath uid ∧
       ws.framesWritten.length = (runLoop env pol n).step) := by
  obtain ⟨-, -, hw⟩ := loop_invariant env pol hreg n
  exact ⟨runLoop_writers_keys env pol n, hreg.nodup,
    fun uid ws h => ⟨(hw uid ws h).1, (hw uid ws h).2.2⟩⟩

/-- Witness for C4 after three iterations of `env0`. -/
theorem one_video_per_camera_witness :
    dictKeys (runLoop env0 pol0 3).writers = camKeys env0 ∧
    (camKeys env0).Nodup ∧
    (∀ uid ws, dictGet uid (runLoop env0 pol0 3).writers = some ws →
       ws.path = videoPath uid ∧
       ws.framesWritten.length = (runLoop env0 pol0 3).step) :=
  one_video_per_camera env0 pol0 env0_regular 3

/-! ## Claim C5: writer lifecycle invariant -/

/-- C5: one writer exists per camera identifier of the initial observation;
writers are opened (empty, never closed) before any frame is appended; no
writer is ever closed while the loop runs; the post-loop path closes each
writer exactly once; and closing appends no further frame. -/
theorem writer_lifecycle (env : EnvModel) (pol : PolicyModel)
    (hreg : EnvRegular env) (n : ℕ) :
    dictKeys (runLoop env pol n).writers = camKeys env ∧
    (∀ uid ws, dictGet uid (initWriters env.resetObs) = some ws →
       ws.framesWritten = [] ∧ ws.closeCount = 0) ∧
    (∀ uid ws, dictGet uid (runLoop env pol n).writers = some ws →
       ws.closeCount = 0) ∧
    (∀ uid ws, dictGet uid (teardown (runLoop env pol n)).2 = some ws →
       ws.closeCount = 1) ∧
    ((teardown (runLoop env pol n)).2.map (fun e => (e.1, e.2.framesWritten)) =
       (runLoop env pol n).writers.map (fun e => (e.1, e.2.framesWritten))) := by
  obtain ⟨-, -, hw⟩ := loop_invariant env pol hreg n
  refine ⟨runLoop_writers_keys env pol n, ?_, fun uid ws h => (hw uid ws h).2.1,
    ?_, ?_⟩
  · intro uid ws h
    have heq : dictGet uid (initWriters env.resetObs) =
        (dictGet uid env.resetObs.sensor_data).map
          (fun _ => ({ path := videoPath uid, framesWritten := [],
                       closeCount := 0 } : WriterState)) :=
      dictGet_mapEntries
        (fun k _ => ({ path := videoPath k, framesWritten := [],
                       closeCount := 0 } : WriterState))
        uid env.resetObs.sensor_data
    rw [heq] at h
    cases hg : dictGet uid env.resetObs.sensor_data with
    | none =>
      rw [hg] at h
      exact Option.noConfusion h
    | some v =>
      rw [hg] at h
      simp only [Option.map_some'] at h
      injection h with h
      exact ⟨by rw [← h], by rw [← h]⟩
  · intro uid ws h
    have heq : dictGet uid (teardown (runLoop env pol n)).2 =
        (dictGet uid (runLoop env pol n).writers).map
          (fun ws0 => ({ path := ws0.path, framesWritten := ws0.framesWritten,
                         closeCount := ws0.closeCount + 1 } : WriterState)) := by
      have base := dictGet_mapEntries
        (fun _ ws0 => ({ path := ws0.path, framesWritten := ws0.framesWritten,
                         closeCount := ws0.closeCount + 1 } : WriterState))
        uid (runLoop env pol n).writers
      exact base
    rw [heq] at h
    cases hg : dictGet uid (runLoop env pol n).writers with
    | none =>
      rw [hg] at h
      exact Option.noConfusion h
    | some ws0 =>
      rw [hg] at h
      simp only [Option.map_some'] at h
      injection h with h
      rw [← h]
      simp [(hw uid ws0 hg).2.1]
  · simp only [teardown, List.map_map]
    rfl

/-- Witness for C5 after two iterations of `env0`. -/
theorem writer_lifecycle_witness :
    dictKeys (runLoop env0 pol0 2).writers = camKeys env0 ∧
    (∀ uid ws, dictGet uid (initWriters env0.resetObs) = some ws →
       ws.framesWritten = [] ∧ ws.closeCount = 0) ∧
    (∀ uid ws, dictGet uid (runLoop env0 pol0 2).writers = some ws →
       ws.closeCount = 0) ∧
    (∀ uid ws, dictGet uid (teardown (runLoop env0 pol0 2)).2 = some ws →
       ws.closeCount = 1) ∧
    ((teardown (runLoop env0 pol0 2)).2.map (fun e => (e.1, e.2.framesWritten)) =
       (runLoop env0 pol0 2).writers.map (fun e => (e.1, e.2.framesWritten))) :=
  writer_lifecycle env0 pol0 env0_regular 2

/-! ## Claim C8: success reporting and writer closing -/

/-- C8: when the loop exits normally after iteration `n + 1`, the script
prints `Success!` exactly when the `terminated` flag returned by the final
`env.step` call is true and `Failure!` exactly when it is false, and the
teardown path then closes every writer (each close count is incremented
once). -/
theorem success_reporting (env : EnvModel) (pol : PolicyModel) (n : ℕ)
    (b : Batch)
    (hd : (runLoop env pol n).done = false)
    (hc : (runLoop env pol n).crashed = false)
    (hb : batchOf (runLoop env pol n).raw_observation = some b)
    (_hexit : (runLoop env pol (n + 1)).done = true) :
    ((teardown (runLoop env pol (n + 1))).1 = "Success!" ↔
       (env.stepf n (sentAction pol n b)).terminated = true) ∧
    ((teardown (runLoop env pol (n + 1))).1 = "Failure!" ↔
       (env.stepf n (sentAction pol n b)).terminated = false) ∧
    (∀ uid ws, dictGet uid (runLoop env pol (n + 1)).writers = some ws →
       dictGet uid (teardown (runLoop env pol (n + 1))).2 =
         some { ws with closeCount := ws.closeCount + 1 }) := by
  have hstepn := runLoop_step_counter env pol n hd hc
  have hsucc : runLoop env pol (n + 1) = stepBody env pol (runLoop env pol n) := by
    rw [runLoop_succ, if_neg (by simp [hd, hc])]
  obtain ⟨-, -, hterm, -, -, -, -, -, -⟩ := stepBody_spec env pol _ b hb
  rw [hstepn] at hterm
  rw [← hsucc] at hterm
  refine ⟨?_, ?_, ?_⟩
  · rw [← hterm]
    cases ht : (runLoop env pol (n + 1)).terminated <;> simp [teardown, ht]
  · rw [← hterm]
    cases ht : (runLoop env pol (n + 1)).terminated <;> simp [teardown, ht]
  · intro uid ws hws
    have heq : dictGet uid (teardown (runLoop env pol (n + 1))).2 =
        (dictGet uid (runLoop env pol (n + 1)).writers).map
          (fun ws0 => ({ path := ws0.path, framesWritten := ws0.framesWritten,
                         closeCount := ws0.closeCount + 1 } : WriterState)) := by
      have base := dictGet_mapEntries
        (fun _ ws0 => ({ path := ws0.path, framesWritten := ws0.framesWritten,
                         closeCount := ws0.closeCount + 1 } : WriterState))
        uid (runLoop env pol (n + 1)).writers
      exact base
    rw [heq, hws]
    rfl

/-- Witness for C8 at the first (truncating, non-terminating) step of
`env0`: the script reports `Failure!`. -/
theorem success_reporting_witness :
    ((teardown (runLoop env0 pol0 1)).1 = "Success!" ↔
       (env0.stepf 0 (sentAction pol0 0 batch0)).terminated = true) ∧
    ((teardown (runLoop env0 pol0 1)).1 = "Failure!" ↔
       (env0.stepf 0 (sentAction pol0 0 batch0)).terminated = false) ∧
    (∀ uid ws, dictGet uid (runLoop env0 pol0 1).writers = some ws →
       dictGet uid (teardown (runLoop env0 pol0 1)).2 =
         some { ws with closeCount := ws.closeCount + 1 }) :=
  success_reporting env0 pol0 0 batch0 rfl rfl rfl rfl

/-! ## Claim C9: camera-set mismatch between observations and writers -/

/-- C9: the frame loop iterates over the post-step observation's cameras
while indexing the writers built from the initial observation.  A camera
identifier present after a step but absent initially makes the writer
lookup fail, which aborts the script (crash); a camera present initially
but absent from the post-step observation silently receives no frame in
that iteration (its writer is left untouched). -/
theorem camera_mismatch (env : EnvModel) (pol : PolicyModel) (n : ℕ)
    (b : Batch) (u : String) (d : CamData)
    (hd : (runLoop env pol n).done = false)
    (hc : (runLoop env pol n).crashed = false)
    (hb : batchOf (runLoop env pol n).raw_observation = some b) :
    ((u, d) ∈ (env.stepf n (sentAction pol n b)).obs.sensor_data →
       u ∉ camKeys env → (runLoop env pol (n + 1)).crashed = true) ∧
    (u ∉ dictKeys (env.stepf n (sentAction pol n b)).obs.sensor_data →
       dictGet u (runLoop env pol (n + 1)).writers =
         dictGet u (runLoop env pol n).writers) := by
  have hstepn := runLoop_step_counter env pol n hd hc
  have hsucc : runLoop env pol (n + 1) = stepBody env pol (runLoop env pol n) := by
    rw [runLoop_succ, if_neg (by simp [hd, hc])]
  obtain ⟨-, -, -, -, hwr, -, hcr, -, -⟩ := stepBody_spec env pol _ b hb
  rw [hstepn] at hwr hcr
  rw [← hsucc] at hwr hcr
  constructor
  · intro hmem hnot
    have hnone : dictGet u (runLoop env pol n).writers = none := by
      rw [dictGet_eq_none_iff, runLoop_writers_keys]
      exact hnot
    rw [hcr, appendFrames_snd_true _ _ u d hmem hnone]
    rfl
  · intro hnot
    rw [hwr, appendFrames_dictGet_not_mem _ _ _ hnot]

/-- Witness for C9: on `envGhost` the extra `ghost_camera` aborts the
script after one step; on `envDropped` the `side_camera` writer receives no
frame in the first iteration. -/
theorem camera_mismatch_witness :
    (runLoop envGhost pol0 1).crashed = true ∧
    dictGet "side_camera" (runLoop envDropped pol0 1).writers =
      dictGet "side_camera" (runLoop envDropped pol0 0).writers :=
  ⟨(camera_mismatch envGhost pol0 0 batch0 "ghost_camera" cam0
      rfl rfl rfl).1 (by decide) (by decide),
   (camera_mismatch envDropped pol0 0 batch0 "side_camera" cam0
      rfl rfl rfl).2 (by decide)⟩

/-! ## Claim C10: frame content -/

/-- C10: the in-memory `frames` list created before the loop is never
appended to; the frame persisted for camera `u` at a live iteration is
exactly batch element 0 of that camera's post-step image tensor restricted
to its first three channels and cast to uint8; and no persisted pixel keeps
a fourth (alpha) channel. -/
theorem frame_content (env : EnvModel) (pol : PolicyModel) (n : ℕ)
    (b : Batch) (u : String) (d : CamData)
    (hd : (runLoop env pol n).done = false)
    (hc : (runLoop env pol n).crashed = false)
    (hb : batchOf (runLoop env pol n).raw_observation = some b)
    (hnodup : (dictKeys (env.stepf n (sentAction pol n b)).obs.sensor_data).Nodup)
    (hall : ∀ p ∈ (env.stepf n (sentAction pol n b)).obs.sensor_data,
       (dictGet p.1 (runLoop env pol n).writers).isSome = true)
    (hmem : (u, d) ∈ (env.stepf n (sentAction pol n b)).obs.sensor_data) :
    (∀ m, (runLoop env pol m).frames = []) ∧
    dictGet u (runLoop env pol (n + 1)).writers =
      (dictGet u (runLoop env pol n).writers).map (fun ws =>
        { ws with framesWritten := ws.framesWritten ++
            [(d.rgb.headD []).map fun row => row.map fun pix =>
               (pix.take 3).map castUint8] }) ∧
    (∀ row ∈ frameOf d.rgb, ∀ pix ∈ row, pix.length ≤ 3) := by
  have hstepn := runLoop_step_counter env pol n hd hc
  have hsucc : runLoop env pol (n + 1) = stepBody env pol (runLoop env pol n) := by
    rw [runLoop_succ, if_neg (by simp [hd, hc])]
  obtain ⟨-, -, -, -, hwr, -, -, -, -⟩ := stepBody_spec env pol _ b hb
  rw [hstepn] at hwr
  rw [← hsucc] at hwr
  refine ⟨runLoop_frames env pol, ?_, ?_⟩
  · rw [hwr, appendFrames_dictGet_mem _ _ u d hnodup hall hmem]
    rfl
  · intro row hrow pix hpix
    simp only [frameOf, List.mem_map] at hrow
    obtain ⟨row0, -, rfl⟩ := hrow
    simp only [List.mem_map] at hpix
    obtain ⟨pix0, -, rfl⟩ := hpix
    rw [List.length_map, List.length_take]
    exact min_le_left _ _

/-- Witness for C10 on `env0` at the first iteration, camera
`top_camera`. -/
theorem frame_content_witness :
    (∀ m, (runLoop env0 pol0 m).frames = []) ∧
    dictGet "top_camera" (runLoop env0 pol0 1).writers =
      (dictGet "top_camera" (runLoop env0 pol0 0).writers).map (fun ws =>
        { ws with framesWritten := ws.framesWritten ++
            [(cam0.rgb.headD []).map fun row => row.map fun pix =>
               (pix.take 3).map castUint8] }) ∧
    (∀ row ∈ frameOf cam0.rgb, ∀ pix ∈ row, pix.length ≤ 3) :=
  frame_content env0 pol0 0 batch0 "top_camera" cam0 rfl rfl rfl
    (by decide) (by decide) (by decide)

/-! ## Image preprocessing lemmas (for claim C6) -/

theorem allPixQ_div255 (x : ImageQ) (P Q : ℚ → Prop)
    (hPQ : ∀ v, P v → Q (v / 255)) (h : allPixQ P x) :
    allPixQ Q (div255 x) := by
  intro a ha r hr pix hpix v hv
  obtain ⟨a0, ha0, rfl⟩ := List.mem_map.1 ha
  obtain ⟨r0, hr0, rfl⟩ := List.mem_map.1 hr
  obtain ⟨p0, hp0, rfl⟩ := List.mem_map.1 hpix
  obtain ⟨v0, hv0, rfl⟩ := List.mem_map.1 hv
  exact hPQ v0 (h a0 ha0 r0 hr0 p0 hp0 v0 hv0)

theorem allPixQ_permute (x : ImageQ) (P : ℚ → Prop) (h0 : P 0)
    (h : allPixQ P x) : allPixQ P (permute_0312 x) := by
  intro a ha r hr pix hpix v hv
  obtain ⟨a0, ha0, rfl⟩ := List.mem_map.1 ha
  obtain ⟨c, -, rfl⟩ := List.mem_map.1 hr
  obtain ⟨row0, hrow0, rfl⟩ := List.mem_map.1 hpix
  obtain ⟨pix0, hpix0, rfl⟩ := List.mem_map.1 hv
  rcases hgd : pix0.get? c with _ | v0
  · have hz : pix0.getD c 0 = 0 := by
      rw [List.getD_eq_get?, hgd]
      rfl
    rw [hz]
    exact h0
  · have hveq : pix0.getD c 0 = v0 := by
      rw [List.getD_eq_get?, hgd]
      rfl
    rw [hveq]
    exact h a0 ha0 row0 hrow0 pix0 hpix0 v0 (List.get?_mem hgd)

theorem allPixZ_toQ (x : ImageZ) (P : ℤ → Prop) (Q : ℚ → Prop)
    (hPQ : ∀ n, P n → Q (n : ℚ)) (h : allPixZ P x) :
    allPixQ Q (imgToQ x) := by
  intro a ha r hr pix hpix v hv
  obtain ⟨a0, ha0, rfl⟩ := List.mem_map.1 ha
  obtain ⟨r0, hr0, rfl⟩ := List.mem_map.1 hr
  obtain ⟨p0, hp0, rfl⟩ := List.mem_map.1 hpix
  obtain ⟨v0, hv0, rfl⟩ := List.mem_map.1 hv
  exact hPQ v0 (h a0 ha0 r0 hr0 p0 hp0 v0 hv0)

/-- The image pipeline maps pixel values in `[0, 255]` into `[0, 1]`. -/
theorem preprocess_unit_interval (img : ImageZ)
    (h : allPixZ (fun n => 0 ≤ n ∧ n ≤ 255) img) :
    allPixQ (fun v => 0 ≤ v ∧ v ≤ 1) (preprocessImage img) := by
  unfold preprocessImage
  refine allPixQ_div255 _ (fun v => 0 ≤ v ∧ v ≤ 255) _
    (fun v hv => ⟨div_nonneg hv.1 (by norm_num),
      (div_le_one (by norm_num)).2 hv.2⟩) ?_
  refine allPixQ_permute _ _ ⟨le_refl 0, by norm_num⟩ ?_
  exact allPixZ_toQ _ _ _
    (fun n hn => ⟨by exact_mod_cast hn.1, by exact_mod_cast hn.2⟩) h

/-- `hwc_to_chw` is a channel-first permutation: entry `(c, h, w)` of the
output is entry `(h, w, c)` of the input. -/
theorem hwc_to_chw_spec (x : List (List (List ℚ))) (c h w : ℕ)
    (r : List (List ℚ)) (pix : List ℚ) (v : ℚ)
    (hr : x.get? h = some r) (hpix : r.get? w = some pix)
    (hv : pix.get? c = some v) (hc : c < channelCount x) :
    ((hwc_to_chw x).get? c).bind (fun plane =>
      (plane.get? h).bind fun rowq => rowq.get? w) = some v := by
  unfold hwc_to_chw
  rw [List.get?_map, List.get?_range hc]
  simp only [Option.map_some', Option.some_bind]
  rw [List.get?_map, hr]
  simp only [Option.map_some', Option.some_bind]
  rw [List.get?_map, hpix]
  simp only [Option.map_some']
  rw [List.getD_eq_get?, hv]
  rfl

/-! ## Claim C6: the policy input contract -/

/-- C6 as stated is false on the code: the proprioceptive state tensor is
the converted pose passed through without normalization, so its values need
not lie in `[0, 1]`.  At the concrete observation `obsBad` (pose first
coordinate 2), the batch is built and its state row contains the value `2`,
outside `[0, 1]`. -/
theorem state_outside_unit_interval :
    batchOf obsBad = some batchBad ∧
    ∃ row ∈ batchBad.observation_state, ∃ v ∈ row, ¬(0 ≤ v ∧ v ≤ 1) := by
  refine ⟨rfl, convert_7_to_6 obsBad.tcp_pose, ?_, 2, ?_, ?_⟩
  · simp [batchBad]
  · show (2 : ℚ) ∈ convert_7_to_6 obsBad.tcp_pose
    simp [convert_7_to_6, obsBad]
  · norm_num

/-- C6 (amended): the policy input mapping holds the task description
string and the proprioceptive state (the converted pose, passed through
unnormalized); the three named image channels are the preprocessed camera
images, channel-first (entry `(c, h, w)` of a permuted plane is entry
`(h, w, c)` of the source), and — given per-pixel source values in
`[0, 255]` — every image entry lies in `[0, 1]`. -/
theorem batch_contract (obs : Obs) (b : Batch) (top side wrist : CamData)
    (htop : dictGet "top_camera" obs.sensor_data = some top)
    (hside : dictGet "side_camera" obs.sensor_data = some side)
    (hwrist : dictGet "wrist_camera" obs.sensor_data = some wrist)
    (hb : batchOf obs = some b)
    (hbt : allPixZ (fun n => 0 ≤ n ∧ n ≤ 255) top.rgb)
    (hbs : allPixZ (fun n => 0 ≤ n ∧ n ≤ 255) side.rgb)
    (hbw : allPixZ (fun n => 0 ≤ n ∧ n ≤ 255) wrist.rgb) :
    b.task = "Pick up the red cube." ∧
    b.observation_state = [convert_7_to_6 obs.tcp_pose] ∧
    b.image = preprocessImage wrist.rgb ∧
    b.image2 = preprocessImage top.rgb ∧
    b.image3 = preprocessImage side.rgb ∧
    allPixQ (fun v => 0 ≤ v ∧ v ≤ 1) b.image ∧
    allPixQ (fun v => 0 ≤ v ∧ v ≤ 1) b.image2 ∧
    allPixQ (fun v => 0 ≤ v ∧ v ≤ 1) b.image3 ∧
    (∀ (x : List (List (List ℚ))) (c h w : ℕ) r pix v,
       x.get? h = some r → r.get? w = some pix → pix.get? c = some v →
       c < channelCount x →
       ((hwc_to_chw x).get? c).bind (fun plane =>
         (plane.get? h).bind fun rowq => rowq.get? w) = some v) := by
  unfold batchOf at hb
  rw [htop, hside, hwrist] at hb
  injection hb with hb
  subst hb
  exact ⟨rfl, rfl, rfl, rfl, rfl,
    preprocess_unit_interval wrist.rgb hbw,
    preprocess_unit_interval top.rgb hbt,
    preprocess_unit_interval side.rgb hbs,
    fun x c h w r pix v hr hpix hv hc => hwc_to_chw_spec x c h w r pix v hr hpix hv hc⟩

/-- Witness for C6 (amended) on the concrete observation `obs1` whose
three cameras carry the RGBA pixel `[10, 20, 30, 40]`. -/
theorem batch_contract_witness :
    batch1.task = "Pick up the red cube." ∧
    batch1.observation_state = [convert_7_to_6 obs1.tcp_pose] ∧
    batch1.image = preprocessImage camPix.rgb ∧
    batch1.image2 = preprocessImage camPix.rgb ∧
    batch1.image3 = preprocessImage camPix.rgb ∧
    allPixQ (fun v => 0 ≤ v ∧ v ≤ 1) batch1.image ∧
    allPixQ (fun v => 0 ≤ v ∧ v ≤ 1) batch1.image2 ∧
    allPixQ (fun v => 0 ≤ v ∧ v ≤ 1) batch1.image3 ∧
    (∀ (x : List (List (List ℚ))) (c h w : ℕ) r pix v,
       x.get? h = some r → r.get? w = some pix → pix.get? c = some v →
       c < channelCount x →
       ((hwc_to_chw x).get? c).bind (fun plane =>
         (plane.get? h).bind fun rowq => rowq.get? w) = some v) :=
  batch_contract obs1 batch1 camPix camPix camPix rfl rfl rfl rfl
    (by decide) (by decide) (by decide)

/-! ## Claim C2: pose round trip -/

/-- C2: for every 7-element pose whose quaternion scalar part is nonzero
(the codec's singular set), `convert_6_to_7 (convert_7_to_6 p)` preserves
the translation exactly and returns a quaternion that is a nonzero scalar
multiple of the original — the same rotation under the projective
quaternion representation, i.e. a round trip up to the chosen rotation
representation. -/
theorem pose_roundtrip (x y z qw qx qy qz : ℚ) (hqw : qw ≠ 0) :
    (convert_6_to_7 (convert_7_to_6 [x, y, z, qw, qx, qy, qz])).take 3 =
      [x, y, z] ∧
    ∃ c : ℚ, c ≠ 0 ∧
      (convert_6_to_7 (convert_7_to_6 [x, y, z, qw, qx, qy, qz])).drop 3 =
        [qw, qx, qy, qz].map (c * ·) := by
  refine ⟨rfl, 1 / qw, one_div_ne_zero hqw, ?_⟩
  simp only [convert_7_to_6, convert_6_to_7, List.drop, List.map]
  rw [one_div, inv_mul_cancel₀ hqw]
  simp [div_eq_mul_inv, mul_comm]

/-- Witness for C2 at the concrete pose `[1, 2, 3, 2, 4, 6, 8]`. -/
theorem pose_roundtrip_witness :
    (convert_6_to_7 (convert_7_to_6 [1, 2, 3, 2, 4, 6, 8])).take 3 =
      [1, 2, 3] ∧
    ∃ c : ℚ, c ≠ 0 ∧
      (convert_6_to_7 (convert_7_to_6 [1, 2, 3, 2, 4, 6, 8])).drop 3 =
        [2, 4, 6, 8].map (c * ·) :=
  pose_roundtrip 1 2 3 2 4 6 8 (by norm_num)

/-! ## Claim C7: scaling is linear and zero-preserving, not idempotent -/

/-- C7 (as stated) is false: re-applying the documented scale factors is
not idempotent.  At the concrete action row `[1, 1, 1, 1, 1, 1]`, scaling
twice gives `[1/400, …]` while scaling once gives `[1/20, …]`. -/
theorem scale_not_idempotent :
    scaleActionRow (scaleActionRow [1, 1, 1, 1, 1, 1]) ≠
      scaleActionRow [1, 1, 1, 1, 1, 1] := by
  norm_num [scaleActionRow, scaleFrom, scaleFactor]

/-- C7 (amended): action scaling is linear — it distributes over vector
addition (for equal-length rows) and over scalar multiplication — and it
maps the zero 6-dimensional action to the zero action; re-application
agrees with a single application on the zero action (the instance the spec
names), though not on general actions. -/
theorem scale_linear_zero (a b : List ℚ) (c : ℚ) (h : a.length = b.length) :
    scaleActionRow (List.zipWith (· + ·) a b) =
      List.zipWith (· + ·) (scaleActionRow a) (scaleActionRow b) ∧
    scaleActionRow (a.map (c * ·)) = (scaleActionRow a).map (c * ·) ∧
    scaleActionRow (List.replicate 6 0) = List.replicate 6 0 ∧
    scaleActionRow (scaleActionRow (List.replicate 6 0)) =
      scaleActionRow (List.replicate 6 0) := by
  refine ⟨scaleFrom_zipWith_add 0 a b h, scaleFrom_smul 0 c a, ?_, ?_⟩ <;>
    norm_num [scaleActionRow, scaleFrom, scaleFactor, List.replicate]

/-- Witness for C7 (amended) at the rows `[1,2,3,4,5,6]`, `[6,5,4,3,2,1]`,
scalar `7`. -/
theorem scale_linear_zero_witness :
    scaleActionRow (List.zipWith (· + ·) [1, 2, 3, 4, 5, 6] [6, 5, 4, 3, 2, 1]) =
      List.zipWith (· + ·) (scaleActionRow [1, 2, 3, 4, 5, 6])
        (scaleActionRow [6, 5, 4, 3, 2, 1]) ∧
    scaleActionRow (([1, 2, 3, 4, 5, 6] : List ℚ).map ((7 : ℚ) * ·)) =
      (scaleActionRow [1, 2, 3, 4, 5, 6]).map ((7 : ℚ) * ·) ∧
    scaleActionRow (List.replicate 6 0) = List.replicate 6 0 ∧
    scaleActionRow (scaleActionRow (List.replicate 6 0)) =
      scaleActionRow (List.replicate 6 0) :=
  scale_linear_zero [1, 2, 3, 4, 5, 6] [6, 5, 4, 3, 2, 1] 7 (by decide)

end SawyerSim
